import Mathlib

/-!
Shallow embedding of the `gpu_monitor` pipeline (Targoman/gpu_monitor):
the aggregator (`gpu_monitor/aggregation.py`), the SQLite-backed store
(`gpu_monitor/db.py`) and the delivery engine (`gpu_monitor/server.py`).

Modelling conventions:
* ISO-8601 timestamp strings are modelled as `Int` seconds; SQLite's
  lexicographic comparison of such strings is order-isomorphic to the
  numeric comparison, and `timedelta(days=n)` becomes `n * 86400`.
* SQLite tables are Lean lists of rows, in insertion (rowid) order.
* `TEXT` values kept for their content (error messages, uids, payload
  dumps) stay `String`; SQLite's `MAX` over `TEXT` with the default
  BINARY collation is modelled by a bytewise lexicographic order on the
  character data.
* Python's `requests` traffic is an oracle parameter (`NetOutcome`):
  the single `session.post` call of one delivery attempt is resolved by
  the oracle, and every result records whether the network was touched.
* GPU readings are dictionaries; the two string-valued entries
  (`device_id`, `name`) are structure fields, the numeric metric entries
  (the only ones `isinstance(v, (int, float))` selects) are an
  association list over `ℚ`.
-/

/-- Bytewise lexicographic strict order on character lists, the order
SQLite's BINARY collation induces on the stored text values. -/
def charListLt : List Char → List Char → Bool
  | [], [] => false
  | [], _ :: _ => true
  | _ :: _, [] => false
  | a :: as, b :: bs => if a < b then true else if b < a then false else charListLt as bs

/-- Strict order on strings used to model SQLite `MAX` over a `TEXT` column. -/
def strLt (a b : String) : Bool := charListLt a.data b.data

/-- SQL `MAX` over a `TEXT` column: `none` on the empty multiset, else the
largest value in the BINARY-collation order. -/
def sqlMaxStr (l : List String) : Option String :=
  l.foldl (fun acc s => some (match acc with
    | none => s
    | some t => if strLt t s then s else t)) none

/-- SQL `MIN` over an integer-valued column (`none` on the empty multiset). -/
def sqlMinInt (l : List Int) : Option Int :=
  l.foldl (fun acc s => some (match acc with
    | none => s
    | some t => min t s)) none

/-- SQL `MAX` over an integer-valued column (`none` on the empty multiset). -/
def sqlMaxInt (l : List Int) : Option Int :=
  l.foldl (fun acc s => some (match acc with
    | none => s
    | some t => max t s)) none

/-- Insert into a list sorted by `le`, used to model SQL `ORDER BY`. -/
def insertLe {α : Type} (le : α → α → Bool) (a : α) : List α → List α
  | [] => [a]
  | b :: bs => if le a b then a :: b :: bs else b :: insertLe le a bs

/-- Sort by `le` (insertion sort), modelling SQL `ORDER BY`. -/
def sortLe {α : Type} (le : α → α → Bool) : List α → List α
  | [] => []
  | a :: as => insertLe le a (sortLe le as)

/-- First-occurrence deduplication, modelling the key set of a Python
dict built by insertion (and SQL `GROUP BY` key sets). -/
def uniqueKeys {α : Type} [DecidableEq α] (l : List α) : List α :=
  l.foldl (fun acc a => if a ∈ acc then acc else acc ++ [a]) []

/-! ## Aggregator (`gpu_monitor/aggregation.py`) -/

/-- One per-device reading inside one raw collection: the dict
`{"device_id": ..., "name": ..., metric: number, ...}`. The numeric
metric entries are `fields`; `device_id` and `name` are the string
entries, which the `isinstance` filter of the aggregator never selects. -/
structure Reading where
  device_id : String
  name : String
  fields : List (String × ℚ)
  deriving DecidableEq, Repr

/-- Statistics emitted for one metric: models the three dict entries
`key_mean`, `key_min` and `key_max` written by `aggregate_gpu_data`. -/
structure FieldStats where
  mean : ℚ
  min : ℚ
  max : ℚ
  deriving DecidableEq, Repr

/-- One aggregated per-device summary dict produced by `aggregate_gpu_data`:
`device_id`, `name`, and per metric key the three suffixed entries. -/
structure AggregatedGpu where
  device_id : String
  name : String
  stats : List (String × FieldStats)
  deriving DecidableEq, Repr

/-- Values present for a metric across a device group, in input order:
the list comprehension `[gpu[key] for gpu in gpu_list if key in gpu]`
(readings missing the key contribute nothing). -/
def presentValues (gpu_list : List Reading) (key : String) : List ℚ :=
  gpu_list.filterMap (fun g => g.fields.lookup key)

/-- Summary of one device group (`gpu_list` is `device_data[device_id]`,
nonempty whenever the group exists): name from the last reading,
`numeric_keys` from the first reading, and for each such key the mean
(`statistics.mean`, i.e. sum divided by count), min and max of the
values present. -/
def aggregateDevice (gpu_list : List Reading) : AggregatedGpu :=
  match gpu_list with
  | [] => ⟨"", "", []⟩
  | g0 :: _ =>
    let numeric_keys := g0.fields.map Prod.fst
    { device_id := g0.device_id
      name := (gpu_list.getLastD g0).name
      stats := numeric_keys.filterMap (fun key =>
        let values := presentValues gpu_list key
        match values with
        | [] => none
        | v :: vs =>
          some (key, { mean := (v :: vs).sum / ((v :: vs).length : ℚ)
                       min := vs.foldl Min.min v
                       max := vs.foldl Max.max v })) }

/-- Embedding of `aggregate_gpu_data`: flatten the collections, group the
readings by `device_id` in first-seen order, and summarise each group. -/
def aggregate_gpu_data (collections : List (List Reading)) : List AggregatedGpu :=
  match collections with
  | [] => []
  | _ =>
    let all := collections.flatten
    let devices := uniqueKeys (all.map (·.device_id))
    devices.map (fun d => aggregateDevice (all.filter (fun g => decide (g.device_id = d))))

/-! ## Store (`gpu_monitor/db.py`) -/

/-- Row of the `collections` table (`id` autoincrement is elided; rows are
kept in insertion order; the `sent`/`error` columns of this table are
never written and are elided). -/
structure CollectionRow where
  timestamp : Int
  data : String
  deriving DecidableEq, Repr

/-- Row of the `aggregated_data` table. -/
structure AggRow where
  id : Nat
  aggregation_time : Int
  data : String
  sent : Bool
  error : Option String
  deriving DecidableEq, Repr

/-- Row of the `send_attempts` table (the autoincrement `id` is elided;
rows are kept in insertion order). -/
structure SendAttempt where
  aggregation_time : Int
  timestamp : Int
  success : Bool
  error : Option String
  uid : Option String
  params : Option String
  attempt_number : Nat
  deriving DecidableEq, Repr

/-- The SQLite database: the three tables of `Database._create_tables`. -/
structure Database where
  collections : List CollectionRow
  aggregated_data : List AggRow
  send_attempts : List SendAttempt
  deriving DecidableEq, Repr

/-- Projection returned by `get_unsent_aggregated_data`
(`SELECT id, aggregation_time, data`). -/
structure UnsentRow where
  id : Nat
  aggregation_time : Int
  data : String
  deriving DecidableEq, Repr

/-- Embedding of `Database.get_unsent_aggregated_data`: unsent aggregates
with `aggregation_time` strictly newer than `now` minus 30 days, ordered
by aggregation time ascending. -/
def Database.get_unsent_aggregated_data (db : Database) (now : Int) : List UnsentRow :=
  let cutoff_date := now - 30 * 86400
  (sortLe (fun a b => decide (a.aggregation_time ≤ b.aggregation_time))
      (db.aggregated_data.filter
        (fun r => !r.sent && decide (cutoff_date < r.aggregation_time)))).map
    (fun r => ⟨r.id, r.aggregation_time, r.data⟩)

/-- Embedding of `Database.mark_aggregated_data_sent`: on success set
`sent = 1, error = NULL`, on failure set `sent = 0, error = ?`, on every
row whose `id` matches. -/
def Database.mark_aggregated_data_sent (db : Database) (data_id : Nat) (success : Bool)
    (error : Option String := none) : Database :=
  { db with aggregated_data := db.aggregated_data.map (fun r =>
      if r.id = data_id then
        if success then { r with sent := true, error := none }
        else { r with sent := false, error := error }
      else r) }

/-- Embedding of `Database.record_send_attempt`: the new row's
`attempt_number` is `(MAX(attempt_number) for this key, or 0) + 1`, and
the row is appended with the current time `now` as its timestamp. -/
def Database.record_send_attempt (db : Database) (aggregation_time : Int) (now : Int)
    (success : Bool) (error : Option String := none) (uid : Option String := none)
    (params : Option String := none) : Database :=
  let prev := db.send_attempts.filter (fun a => decide (a.aggregation_time = aggregation_time))
  let attempt_number := prev.foldl (fun m a => Nat.max m a.attempt_number) 0 + 1
  { db with send_attempts := db.send_attempts ++
      [⟨aggregation_time, now, success, error, uid, params, attempt_number⟩] }

/-- Embedding of `Database.get_send_attempts`: all attempts for one
aggregation key, ordered by timestamp ascending. -/
def Database.get_send_attempts (db : Database) (aggregation_time : Int) : List SendAttempt :=
  sortLe (fun a b => decide (a.timestamp ≤ b.timestamp))
    (db.send_attempts.filter (fun a => decide (a.aggregation_time = aggregation_time)))

/-- One row of the delivery-summary queries (`get_all_sends` /
`get_send_by_time`): `COUNT(*)`, `MIN(timestamp)`, `MAX(timestamp)`,
`MAX(CASE WHEN success = 0 THEN error END)`,
`MAX(CASE WHEN success = 1 THEN uid END)`, and
`MAX(CASE WHEN success = 1 THEN 1 ELSE 0 END)`. -/
structure SendSummary where
  attempts : Nat
  first_attempt : Option Int
  last_attempt : Option Int
  last_error : Option String
  uid : Option String
  sent : Bool
  deriving DecidableEq, Repr

/-- Aggregate one `GROUP BY aggregation_time` group of `send_attempts`
rows into its summary row (SQL aggregates ignore `NULL` inputs). -/
def summaryOfRows (rows : List SendAttempt) : SendSummary :=
  { attempts := rows.length
    first_attempt := sqlMinInt (rows.map (·.timestamp))
    last_attempt := sqlMaxInt (rows.map (·.timestamp))
    last_error := sqlMaxStr (rows.filterMap (fun a => if a.success then none else a.error))
    uid := sqlMaxStr (rows.filterMap (fun a => if a.success then a.uid else none))
    sent := rows.any (·.success) }

/-- Embedding of `Database.get_send_by_time`: the summary row for one
aggregation key, `none` when the key has no attempts. -/
def Database.get_send_by_time (db : Database) (aggregation_time : Int) : Option SendSummary :=
  let rows := db.send_attempts.filter (fun a => decide (a.aggregation_time = aggregation_time))
  match rows with
  | [] => none
  | _ => some (summaryOfRows rows)

/-- Embedding of `Database.get_all_sends`: one summary row per distinct
aggregation key, ordered by key descending. -/
def Database.get_all_sends (db : Database) : List (Int × SendSummary) :=
  (sortLe (fun a b => decide (b ≤ a)) (uniqueKeys (db.send_attempts.map (·.aggregation_time)))).map
    (fun t => (t, summaryOfRows
      (db.send_attempts.filter (fun a => decide (a.aggregation_time = t)))))

/-- Embedding of `Database.cleanup_old_data`: delete collections strictly
older than 30 days, and aggregates and send attempts whose aggregation
key is strictly older than 365 days, relative to `now`. -/
def Database.cleanup_old_data (db : Database) (now : Int) : Database :=
  let collections_cutoff := now - 30 * 86400
  let aggregated_cutoff := now - 365 * 86400
  { collections := db.collections.filter (fun c => !decide (c.timestamp < collections_cutoff))
    aggregated_data := db.aggregated_data.filter
      (fun r => !decide (r.aggregation_time < aggregated_cutoff))
    send_attempts := db.send_attempts.filter
      (fun a => !decide (a.aggregation_time < aggregated_cutoff)) }

/-! ## Delivery engine (`gpu_monitor/server.py`) -/

/-- Aggregate payload dict handed to the delivery engine: the `id` and
`contract_number` entries that `send_aggregated_data`/`send_data` read or
write, plus an opaque remainder standing for the other entries. -/
structure Payload where
  id : Option Nat
  contract_number : Option String
  rest : String
  deriving DecidableEq, Repr

/-- Serialization `json.dumps(data)` of a payload: an injective rendering
whose exact shape is never inspected by the code. -/
def dumpPayload (p : Payload) : String :=
  "id:" ++ (match p.id with | none => "null" | some i => toString i) ++
  ";contract_number:" ++ (match p.contract_number with | none => "null" | some c => c) ++
  ";" ++ p.rest

/-- Body of a 2xx HTTP response as `response.json()` sees it: either not
a JSON object, or an object with optional `uid` and `params` entries. -/
inductive RespBody
  | notDict
  | dict (uid : Option String) (params : Option Payload)
  deriving DecidableEq, Repr

/-- Oracle for the single `session.post` call of one delivery attempt:
a transport-level `requests.RequestException`, or a status code with a
response body. -/
inductive NetOutcome
  | exc (msg : String)
  | resp (code : Nat) (body : RespBody)
  deriving DecidableEq, Repr

/-- State of `ServerClient` relevant to a delivery attempt (the
`requests.Session`, headers and verbosity flag are I/O plumbing). -/
structure ServerClient where
  url : String
  contract_number : String
  offline : Bool
  timeout : Nat
  max_retries : Nat
  deriving DecidableEq, Repr

/-- Embedding of `ServerClient.__init__`: note the `offline` parameter
defaults to `True`, and `max_retries` is fixed at 10. -/
def ServerClient.init (url : String) (contract_number : String)
    (offline : Bool := true) : ServerClient :=
  { url := url, contract_number := contract_number, offline := offline
    timeout := 30, max_retries := 10 }

/-- Result of one `ServerClient.send_data` call: the returned
`(success, error)` pair, the database after any `record_send_attempt`,
and whether `session.post` was reached. -/
structure SendOutcome where
  success : Bool
  error : Option String
  db : Database
  networkUsed : Bool
  deriving DecidableEq, Repr

/-- Embedding of `ServerClient.send_data`: offline short-circuit, retry
ceiling check, then one transmission classified exactly as the source
does, recording a `send_attempts` row on every attempted transmission. -/
def ServerClient.send_data (client : ServerClient) (data : Payload) (aggregation_time : Int)
    (db : Database) (now : Int) (net : NetOutcome) : SendOutcome :=
  if client.url = "" ∨ client.offline = true then
    { success := true, error := none, db := db, networkUsed := false }
  else
    let attempts := db.get_send_attempts aggregation_time
    if client.max_retries ≤ attempts.length then
      let error := "Maximum retry attempts (" ++ toString client.max_retries ++ ") reached"
      { success := false, error := some error, db := db, networkUsed := false }
    else
      let data' := { data with contract_number := some client.contract_number }
      let params := dumpPayload data'
      match net with
      | NetOutcome.exc msg =>
        let error := "Failed to send data: " ++ msg
        { success := false, error := some error
          db := db.record_send_attempt aggregation_time now false (some error) none (some params)
          networkUsed := true }
      | NetOutcome.resp code body =>
        if code = 200 then
          match body with
          | RespBody.notDict =>
            let error := "Server response is not a valid JSON object"
            { success := false, error := some error
              db := db.record_send_attempt aggregation_time now false (some error) none (some params)
              networkUsed := true }
          | RespBody.dict none _ =>
            let error := "Server response missing required 'uid' field"
            { success := false, error := some error
              db := db.record_send_attempt aggregation_time now false (some error) none (some params)
              networkUsed := true }
          | RespBody.dict (some u) respParams =>
            match respParams with
            | some p =>
              if p = data' then
                { success := true, error := none
                  db := db.record_send_attempt aggregation_time now true none (some u) (some params)
                  networkUsed := true }
              else
                let error := "Server response data does not match sent data"
                { success := false, error := some error
                  db := db.record_send_attempt aggregation_time now false (some error) (some u)
                    (some params)
                  networkUsed := true }
            | none =>
              { success := true, error := none
                db := db.record_send_attempt aggregation_time now true none (some u) (some params)
                networkUsed := true }
        else
          let error := "Server returned non-200 status: " ++ toString code
          { success := false, error := some error
            db := db.record_send_attempt aggregation_time now false (some error) none (some params)
            networkUsed := true }

/-- Result of one `send_aggregated_data` call: the returned success flag,
the database after the send and the status update, and whether the
network was touched. -/
structure DriverResult where
  success : Bool
  db : Database
  networkUsed : Bool
  deriving DecidableEq, Repr

/-- Embedding of `send_aggregated_data`: build a `ServerClient` (note: the
constructor call passes no `offline` argument, so the default applies),
call `send_data`, then update the aggregate row's status when the payload
carries an `id`. -/
def send_aggregated_data (data : Payload) (aggregation_time : Int) (server_url : String)
    (db : Database) (now : Int) (net : NetOutcome) : DriverResult :=
  let client := ServerClient.init server_url ((data.contract_number).getD "")
  let r := client.send_data data aggregation_time db now net
  let db' := match data.id with
    | some i =>
      if r.success then r.db.mark_aggregated_data_sent i true
      else r.db.mark_aggregated_data_sent i false r.error
    | none => r.db
  { success := r.success, db := db', networkUsed := r.networkUsed }

/-! ## Spec-side reference definitions -/

/-- Modelled from the spec: the error of the chronologically last failed
delivery attempt for one aggregation key (`null` when no attempt failed).
This is the spec's reading of the summary row's last-error field, to be
compared with what the SQL query computes. -/
def specChronLastError (db : Database) (aggregation_time : Int) : Option String :=
  let rows := sortLe (fun a b => decide (a.timestamp ≤ b.timestamp))
    (db.send_attempts.filter (fun a => decide (a.aggregation_time = aggregation_time)))
  ((rows.filter (fun a => !a.success)).getLast?).bind (·.error)

/-! ## Helper lemmas -/

theorem mem_insertLe {α : Type} (le : α → α → Bool) (a x : α) (l : List α) :
    x ∈ insertLe le a l ↔ x = a ∨ x ∈ l := by
  induction l with
  | nil => simp [insertLe]
  | cons b bs ih =>
    simp only [insertLe]
    split
    · simp
    · simp only [List.mem_cons, ih]
      tauto

theorem mem_sortLe {α : Type} (le : α → α → Bool) (x : α) (l : List α) :
    x ∈ sortLe le l ↔ x ∈ l := by
  induction l with
  | nil => simp [sortLe]
  | cons a as ih => simp [sortLe, mem_insertLe, ih]

theorem length_insertLe {α : Type} (le : α → α → Bool) (a : α) (l : List α) :
    (insertLe le a l).length = l.length + 1 := by
  induction l with
  | nil => simp [insertLe]
  | cons b bs ih =>
    simp only [insertLe]
    split <;> simp [ih]

theorem length_sortLe {α : Type} (le : α → α → Bool) (l : List α) :
    (sortLe le l).length = l.length := by
  induction l with
  | nil => rfl
  | cons a as ih => simp [sortLe, length_insertLe, ih]

theorem mem_uniqueKeys_foldl {α : Type} [DecidableEq α] (l : List α) (acc : List α) (x : α) :
    x ∈ l.foldl (fun acc a => if a ∈ acc then acc else acc ++ [a]) acc ↔ x ∈ acc ∨ x ∈ l := by
  induction l generalizing acc with
  | nil => simp
  | cons a as ih =>
    simp only [List.foldl_cons]
    by_cases h : a ∈ acc
    · simp only [if_pos h, ih, List.mem_cons]
      constructor
      · tauto
      · rintro (h' | h' | h')
        · tauto
        · exact Or.inl (h' ▸ h)
        · tauto
    · simp only [if_neg h, ih, List.mem_append, List.mem_singleton, List.mem_cons]
      tauto

theorem mem_uniqueKeys {α : Type} [DecidableEq α] (l : List α) (x : α) :
    x ∈ uniqueKeys l ↔ x ∈ l := by
  simp [uniqueKeys, mem_uniqueKeys_foldl]

theorem foldl_min_mem {α : Type} [LinearOrder α] (v : α) (vs : List α) :
    vs.foldl Min.min v ∈ v :: vs := by
  induction vs generalizing v with
  | nil => simp
  | cons w ws ih =>
    simp only [List.foldl_cons]
    have h := ih (Min.min v w)
    rcases List.mem_cons.1 h with h' | h'
    · rw [h']
      rcases min_choice v w with h'' | h'' <;> simp [h'']
    · simp [h']

theorem foldl_min_le {α : Type} [LinearOrder α] (v : α) (vs : List α) :
    ∀ x ∈ v :: vs, vs.foldl Min.min v ≤ x := by
  induction vs generalizing v with
  | nil => simp
  | cons w ws ih =>
    intro x hx
    simp only [List.foldl_cons]
    have hmin : ws.foldl Min.min (Min.min v w) ≤ Min.min v w :=
      ih (Min.min v w) _ (List.mem_cons_self _ _)
    rcases List.mem_cons.1 hx with h | h
    · subst h; exact le_trans hmin (min_le_left _ _)
    rcases List.mem_cons.1 h with h' | h'
    · subst h'; exact le_trans hmin (min_le_right _ _)
    · exact ih (Min.min v w) x (List.mem_cons_of_mem _ h')

theorem foldl_max_mem {α : Type} [LinearOrder α] (v : α) (vs : List α) :
    vs.foldl Max.max v ∈ v :: vs := by
  induction vs generalizing v with
  | nil => simp
  | cons w ws ih =>
    simp only [List.foldl_cons]
    have h := ih (Max.max v w)
    rcases List.mem_cons.1 h with h' | h'
    · rw [h']
      rcases max_choice v w with h'' | h'' <;> simp [h'']
    · simp [h']

theorem foldl_le_max {α : Type} [LinearOrder α] (v : α) (vs : List α) :
    ∀ x ∈ v :: vs, x ≤ vs.foldl Max.max v := by
  induction vs generalizing v with
  | nil => simp
  | cons w ws ih =>
    intro x hx
    simp only [List.foldl_cons]
    have hmax : Max.max v w ≤ ws.foldl Max.max (Max.max v w) :=
      ih (Max.max v w) _ (List.mem_cons_self _ _)
    rcases List.mem_cons.1 hx with h | h
    · subst h; exact le_trans (le_max_left _ _) hmax
    rcases List.mem_cons.1 h with h' | h'
    · subst h'; exact le_trans (le_max_right _ _) hmax
    · exact ih (Max.max v w) x (List.mem_cons_of_mem _ h')

theorem charListLt_irrefl : ∀ a : List Char, charListLt a a = false := by
  intro a
  induction a with
  | nil => rfl
  | cons x xs ih => simp [charListLt, ih]

theorem charListLt_trans : ∀ {a b c : List Char},
    charListLt a b = true → charListLt b c = true → charListLt a c = true := by
  intro a
  induction a with
  | nil =>
    intro b c hab hbc
    cases b with
    | nil => simp [charListLt] at hab
    | cons y ys =>
      cases c with
      | nil => simp [charListLt] at hbc
      | cons z zs => simp [charListLt]
  | cons x xs ih =>
    intro b c hab hbc
    cases b with
    | nil => simp [charListLt] at hab
    | cons y ys =>
      cases c with
      | nil => simp [charListLt] at hbc
      | cons z zs =>
        simp only [charListLt] at hab hbc ⊢
        by_cases hxy : x < y
        · by_cases hyz : y < z
          · simp [lt_trans hxy hyz]
          · by_cases hzy : z < y
            · simp [if_pos hxy, if_neg hyz, if_pos hzy] at hbc
            · have : y = z := le_antisymm (not_lt.1 hzy) (not_lt.1 hyz)
              subst this
              simp [hxy]
        · by_cases hyx : y < x
          · simp [if_neg hxy, if_pos hyx] at hab
          · have hxy' : x = y := le_antisymm (not_lt.1 hyx) (not_lt.1 hxy)
            subst hxy'
            simp only [if_neg hxy, if_neg (lt_irrefl x)] at hab
            by_cases hyz : x < z
            · simp [hyz]
            · by_cases hzy : z < x
              · simp [if_neg hyz, if_pos hzy] at hbc
              · have : x = z := le_antisymm (not_lt.1 hzy) (not_lt.1 hyz)
                subst this
                simp only [if_neg (lt_irrefl x)] at hbc ⊢
                exact ih (by simpa using hab) (by simpa using hbc)

theorem charListLt_trichotomy : ∀ a b : List Char,
    charListLt a b = true ∨ charListLt b a = true ∨ a = b := by
  intro a
  induction a with
  | nil =>
    intro b
    cases b with
    | nil => simp
    | cons y ys => simp [charListLt]
  | cons x xs ih =>
    intro b
    cases b with
    | nil => simp [charListLt]
    | cons y ys =>
      rcases lt_trichotomy x y with h | h | h
      · left; simp [charListLt, h]
      · subst h
        rcases ih ys with h' | h' | h'
        · left; simp [charListLt, h']
        · right; left; simp [charListLt, h']
        · right; right; simp [h']
      · right; left; simp [charListLt, h]

theorem strLt_irrefl (a : String) : strLt a a = false := charListLt_irrefl a.data

theorem strLt_trans {a b c : String} (h1 : strLt a b = true) (h2 : strLt b c = true) :
    strLt a c = true := charListLt_trans h1 h2

theorem strLt_trichotomy (a b : String) : strLt a b = true ∨ strLt b a = true ∨ a = b := by
  rcases charListLt_trichotomy a.data b.data with h | h | h
  · exact Or.inl h
  · exact Or.inr (Or.inl h)
  · refine Or.inr (Or.inr ?_)
    exact congrArg String.mk (by simpa using h)

theorem strGe_trans {a b c : String} (h1 : strLt a b = false) (h2 : strLt b c = false) :
    strLt a c = false := by
  by_contra hac
  rw [Bool.not_eq_false] at hac
  rcases strLt_trichotomy b c with h | h | h
  · simp [h] at h2
  · have := strLt_trans hac h
    simp [this] at h1
  · subst h
    simp [hac] at h1

/-- Binary maximum in the BINARY-collation order, the accumulator step of
`sqlMaxStr`. -/
def strMax (t s : String) : String := if strLt t s then s else t

theorem strMax_not_lt_left (t s : String) : strLt (strMax t s) t = false := by
  unfold strMax
  by_cases hts : strLt t s = true
  · rw [if_pos hts]
    by_contra h
    rw [Bool.not_eq_false] at h
    have := strLt_trans hts h
    simp [strLt_irrefl] at this
  · rw [if_neg hts]
    exact strLt_irrefl t

theorem strMax_not_lt_right (t s : String) : strLt (strMax t s) s = false := by
  unfold strMax
  by_cases hts : strLt t s = true
  · rw [if_pos hts]; exact strLt_irrefl s
  · rw [if_neg hts]
    simpa using hts

theorem sqlMaxStr_foldl_some (l : List String) (t : String) :
    l.foldl (fun acc s => some (match acc with
      | none => s
      | some t => if strLt t s then s else t)) (some t) = some (l.foldl strMax t) := by
  induction l generalizing t with
  | nil => rfl
  | cons s ls ih => simp [List.foldl_cons, strMax, ih]

theorem foldl_strMax_mem (t : String) (l : List String) : l.foldl strMax t ∈ t :: l := by
  induction l generalizing t with
  | nil => simp
  | cons s ls ih =>
    simp only [List.foldl_cons]
    have h := ih (strMax t s)
    rcases List.mem_cons.1 h with h' | h'
    · rw [h']
      unfold strMax
      split <;> simp
    · simp [h']

theorem foldl_strMax_ge (t : String) (l : List String) :
    ∀ x ∈ t :: l, strLt (l.foldl strMax t) x = false := by
  induction l generalizing t with
  | nil =>
    intro x hx
    rw [List.mem_singleton] at hx
    rw [hx]
    exact strLt_irrefl t
  | cons s ls ih =>
    intro x hx
    simp only [List.foldl_cons]
    have hM : strLt (ls.foldl strMax (strMax t s)) (strMax t s) = false :=
      ih (strMax t s) _ (List.mem_cons_self _ _)
    rcases List.mem_cons.1 hx with h | h
    · rw [h]
      exact strGe_trans hM (strMax_not_lt_left t s)
    rcases List.mem_cons.1 h with h' | h'
    · rw [h']
      exact strGe_trans hM (strMax_not_lt_right t s)
    · exact ih (strMax t s) x (List.mem_cons_of_mem _ h')

theorem sqlMaxStr_spec (l : List String) (hl : l ≠ []) :
    ∃ e, sqlMaxStr l = some e ∧ e ∈ l ∧ ∀ x ∈ l, strLt e x = false := by
  cases l with
  | nil => exact absurd rfl hl
  | cons t ls =>
    refine ⟨ls.foldl strMax t, ?_, ?_, ?_⟩
    · simpa [sqlMaxStr, List.foldl_cons] using sqlMaxStr_foldl_some ls t
    · exact foldl_strMax_mem t ls
    · exact foldl_strMax_ge t ls

theorem foldl_natMax_range' (n : Nat) : (List.range' 1 n).foldl Nat.max 0 = n := by
  induction n with
  | zero => rfl
  | succ m ih =>
    rw [List.range'_concat]
    rw [List.foldl_append, ih]
    simp [Nat.max_def]
    omega

/-- Inputs of one `record_send_attempt` call (all arguments except the
aggregation key, which a C3-style experiment holds fixed). -/
structure AttemptInput where
  timestamp : Int
  success : Bool
  error : Option String
  uid : Option String
  params : Option String
  deriving DecidableEq, Repr

/-- Sequence of `record_send_attempt` calls for one aggregation key. -/
def recordAll (db : Database) (k : Int) (inputs : List AttemptInput) : Database :=
  inputs.foldl (fun d i => d.record_send_attempt k i.timestamp i.success i.error i.uid i.params) db

theorem record_filter_key (db : Database) (k ts : Int) (succ : Bool) (e u p : Option String) :
    (db.record_send_attempt k ts succ e u p).send_attempts.filter
        (fun a => decide (a.aggregation_time = k)) =
      db.send_attempts.filter (fun a => decide (a.aggregation_time = k)) ++
        [⟨k, ts, succ, e, u, p,
          (db.send_attempts.filter (fun a => decide (a.aggregation_time = k))).foldl
            (fun m a => Nat.max m a.attempt_number) 0 + 1⟩] := by
  simp [Database.record_send_attempt, List.filter_append]

theorem recordAll_attempt_numbers (k : Int) (inputs : List AttemptInput) :
    ∀ (db : Database) (m : Nat),
      (db.send_attempts.filter (fun a => decide (a.aggregation_time = k))).map
          (·.attempt_number) = List.range' 1 m →
      ((recordAll db k inputs).send_attempts.filter
          (fun a => decide (a.aggregation_time = k))).map
        (·.attempt_number) = List.range' 1 (m + inputs.length) := by
  induction inputs with
  | nil =>
    intro db m h
    simpa [recordAll] using h
  | cons i is ih =>
    intro db m h
    have hfold : (db.send_attempts.filter (fun a => decide (a.aggregation_time = k))).foldl
        (fun m a => Nat.max m a.attempt_number) 0 = m := by
      have := List.foldl_map (fun a : SendAttempt => a.attempt_number) Nat.max
        (db.send_attempts.filter (fun a => decide (a.aggregation_time = k))) 0
      rw [← this, h, foldl_natMax_range']
    have hstep : ((db.record_send_attempt k i.timestamp i.success i.error i.uid
        i.params).send_attempts.filter (fun a => decide (a.aggregation_time = k))).map
          (·.attempt_number) = List.range' 1 (m + 1) := by
      rw [record_filter_key, List.map_append, h, hfold]
      rw [List.range'_concat]
      simp
      omega
    have : recordAll db k (i :: is) =
        recordAll (db.record_send_attempt k i.timestamp i.success i.error i.uid i.params) k is :=
      rfl
    rw [this]
    have := ih (db.record_send_attempt k i.timestamp i.success i.error i.uid i.params)
      (m + 1) hstep
    rw [this]
    have hlen : (i :: is).length = is.length + 1 := rfl
    rw [hlen]
    congr 1
    omega

/-- C3: starting from a database with no attempts for key `k`, a sequence
of N `record_send_attempt` calls for `k` (any mix of success and failure)
stores attempt numbers that are exactly the contiguous sequence `1..N` in
call order, each computed as the maximum existing attempt number plus
one. -/
theorem record_send_attempt_contiguous (db : Database) (k : Int) (inputs : List AttemptInput)
    (h : db.send_attempts.filter (fun a => decide (a.aggregation_time = k)) = []) :
    ((recordAll db k inputs).send_attempts.filter
        (fun a => decide (a.aggregation_time = k))).map
      (·.attempt_number) = List.range' 1 inputs.length := by
  have := recordAll_attempt_numbers k inputs db 0 (by simp [h])
  simpa using this

/-- C3 witness: three mixed success/failure calls on an empty log yield
attempt numbers `[1, 2, 3]`. -/
theorem record_send_attempt_contiguous_witness :
    (Database.mk [] [] []).send_attempts.filter (fun a => decide (a.aggregation_time = 0)) = [] ∧
    ((recordAll ⟨[], [], []⟩ 0
        [⟨1, true, none, some "u", none⟩, ⟨2, false, some "e", none, none⟩,
          ⟨3, true, none, none, none⟩]).send_attempts.filter
        (fun a => decide (a.aggregation_time = 0))).map
      (·.attempt_number) = List.range' 1 3 :=
  ⟨rfl, record_send_attempt_contiguous ⟨[], [], []⟩ 0 _ rfl⟩

/-- C7: for every payload and aggregation key, when the server URL is
empty or the offline flag is set, `send_data` returns success with no
error, writes no DeliveryAttempt row (the database is unchanged) and
performs no network transmission. -/
theorem send_data_offline_short_circuit (client : ServerClient) (data : Payload)
    (t : Int) (db : Database) (now : Int) (net : NetOutcome)
    (h : client.url = "" ∨ client.offline = true) :
    client.send_data data t db now net =
      { success := true, error := none, db := db, networkUsed := false } := by
  unfold ServerClient.send_data
  rw [if_pos h]

/-- C7 witness: a client built from an empty URL short-circuits even when
the oracle would have answered with a valid acknowledgment. -/
theorem send_data_offline_short_circuit_witness :
    ((ServerClient.init "" "c").url = "" ∨ (ServerClient.init "" "c").offline = true) ∧
    (ServerClient.init "" "c").send_data ⟨some 1, none, "r"⟩ 0 ⟨[], [], []⟩ 5
        (NetOutcome.resp 200 (RespBody.dict (some "u") none)) =
      { success := true, error := none, db := ⟨[], [], []⟩, networkUsed := false } :=
  ⟨Or.inl rfl,
    send_data_offline_short_circuit (ServerClient.init "" "c") ⟨some 1, none, "r"⟩ 0
      ⟨[], [], []⟩ 5 (NetOutcome.resp 200 (RespBody.dict (some "u") none)) (Or.inl rfl)⟩

/-- C4: with a configured (non-empty) URL and offline disabled, once the
delivery-attempt log for a key holds at least the retry ceiling (10)
rows, `send_data` returns failure with the error
"Maximum retry attempts (10) reached", writes no new DeliveryAttempt row
and does not contact the network. -/
theorem send_data_retry_ceiling (url contract : String) (data : Payload) (t : Int)
    (db : Database) (now : Int) (net : NetOutcome)
    (hurl : url ≠ "")
    (hcount : 10 ≤ (db.get_send_attempts t).length) :
    (ServerClient.init url contract false).send_data data t db now net =
      { success := false, error := some "Maximum retry attempts (10) reached",
        db := db, networkUsed := false } := by
  have hoff : ¬((ServerClient.init url contract false).url = "" ∨
      (ServerClient.init url contract false).offline = true) := by
    simp [ServerClient.init, hurl]
  unfold ServerClient.send_data
  rw [if_neg hoff]
  have hmr : (ServerClient.init url contract false).max_retries = 10 := rfl
  simp only [hmr]
  rw [if_pos hcount]
  rfl

/-- C4 witness: a log of ten prior attempts for key 0 blocks an eleventh
delivery without touching the database or the network. -/
theorem send_data_retry_ceiling_witness :
    ("http://x" : String) ≠ "" ∧
    10 ≤ ((Database.mk [] []
        ((List.range 10).map (fun (n : Nat) =>
          { aggregation_time := 0, timestamp := (n : Int), success := false,
            error := some "e", uid := none, params := none,
            attempt_number := n + 1 }))).get_send_attempts 0).length ∧
    (ServerClient.init "http://x" "c" false).send_data ⟨some 1, none, "r"⟩ 0
        (Database.mk [] [] ((List.range 10).map (fun (n : Nat) =>
          { aggregation_time := 0, timestamp := (n : Int), success := false,
            error := some "e", uid := none, params := none,
            attempt_number := n + 1 }))) 99
        (NetOutcome.resp 200 (RespBody.dict (some "u") none)) =
      { success := false, error := some "Maximum retry attempts (10) reached",
        db := Database.mk [] [] ((List.range 10).map (fun (n : Nat) =>
          { aggregation_time := 0, timestamp := (n : Int), success := false,
            error := some "e", uid := none, params := none,
            attempt_number := n + 1 })), networkUsed := false } :=
  ⟨by decide, by decide,
    send_data_retry_ceiling "http://x" "c" ⟨some 1, none, "r"⟩ 0 _ 99
      (NetOutcome.resp 200 (RespBody.dict (some "u") none)) (by decide) (by decide)⟩

/-- C1: for every URL, payload, database and network oracle, the batch
driver's per-aggregate call `send_aggregated_data` reports success,
records no DeliveryAttempt row and never contacts the network: it
constructs its `ServerClient` without an `offline` argument, and the
constructor's default is offline, so the offline short-circuit is always
taken — the transmission procedure (retry-ceiling check, transmission,
attempt recording) is unreachable from the batch driver. -/
theorem send_aggregated_data_always_offline (data : Payload) (t : Int) (server_url : String)
    (db : Database) (now : Int) (net : NetOutcome) :
    (send_aggregated_data data t server_url db now net).success = true ∧
    (send_aggregated_data data t server_url db now net).networkUsed = false ∧
    (send_aggregated_data data t server_url db now net).db.send_attempts =
      db.send_attempts := by
  have hsd : (ServerClient.init server_url ((data.contract_number).getD "")).send_data
      data t db now net =
      { success := true, error := none, db := db, networkUsed := false } := by
    unfold ServerClient.send_data
    have hoff : (ServerClient.init server_url ((data.contract_number).getD "")).offline = true :=
      rfl
    rw [if_pos (Or.inr hoff)]
  unfold send_aggregated_data
  dsimp only
  rw [hsd]
  cases data.id with
  | none => simp
  | some i => simp [Database.mark_aggregated_data_sent]

/-- C8: one retention sweep deletes exactly the raw samples strictly older
than the 30-day cutoff and exactly the aggregates and delivery attempts
whose aggregation key is strictly older than the 365-day cutoff,
retaining everything newer; the aggregate rule reads no `sent` flag, so
unsent aggregates are deleted just the same. -/
theorem cleanup_old_data_retention (db : Database) (now : Int) :
    (∀ c ∈ db.collections,
      (c.timestamp < now - 30 * 86400 → c ∉ (db.cleanup_old_data now).collections) ∧
      (now - 30 * 86400 ≤ c.timestamp → c ∈ (db.cleanup_old_data now).collections)) ∧
    (∀ r ∈ db.aggregated_data,
      (r.aggregation_time < now - 365 * 86400 → r ∉ (db.cleanup_old_data now).aggregated_data) ∧
      (now - 365 * 86400 ≤ r.aggregation_time →
        r ∈ (db.cleanup_old_data now).aggregated_data)) ∧
    (∀ a ∈ db.send_attempts,
      (a.aggregation_time < now - 365 * 86400 → a ∉ (db.cleanup_old_data now).send_attempts) ∧
      (now - 365 * 86400 ≤ a.aggregation_time →
        a ∈ (db.cleanup_old_data now).send_attempts)) := by
  refine ⟨?_, ?_, ?_⟩
  · intro c hc
    constructor
    · intro hold hmem
      simp only [Database.cleanup_old_data, List.mem_filter, Bool.not_eq_true',
        decide_eq_false_iff_not] at hmem
      exact hmem.2 hold
    · intro hnew
      simp only [Database.cleanup_old_data, List.mem_filter, Bool.not_eq_true',
        decide_eq_false_iff_not]
      exact ⟨hc, by omega⟩
  · intro r hr
    constructor
    · intro hold hmem
      simp only [Database.cleanup_old_data, List.mem_filter, Bool.not_eq_true',
        decide_eq_false_iff_not] at hmem
      exact hmem.2 hold
    · intro hnew
      simp only [Database.cleanup_old_data, List.mem_filter, Bool.not_eq_true',
        decide_eq_false_iff_not]
      exact ⟨hr, by omega⟩
  · intro a ha
    constructor
    · intro hold hmem
      simp only [Database.cleanup_old_data, List.mem_filter, Bool.not_eq_true',
        decide_eq_false_iff_not] at hmem
      exact hmem.2 hold
    · intro hnew
      simp only [Database.cleanup_old_data, List.mem_filter, Bool.not_eq_true',
        decide_eq_false_iff_not]
      exact ⟨ha, by omega⟩

/-- Database used by the C8 witness: a 366-day-old and a 1-day-old sample,
a 370-day-old unsent aggregate with its attempt row, and 1-day-old
counterparts, at `now = day 400`. -/
def c8db : Database :=
  ⟨[⟨34 * 86400, "old"⟩, ⟨399 * 86400, "new"⟩],
    [⟨1, 30 * 86400, "a", false, none⟩, ⟨2, 399 * 86400, "b", false, none⟩],
    [⟨30 * 86400, 5, false, some "e", none, none, 1⟩,
      ⟨399 * 86400, 6, false, some "e", none, none, 1⟩]⟩

/-- C8 witness: the 366-day-old sample and the 370-day-old unsent
aggregate (with its attempt row) are deleted; the 1-day-old rows stay. -/
theorem cleanup_old_data_retention_witness :
    (⟨34 * 86400, "old"⟩ : CollectionRow) ∉ (c8db.cleanup_old_data (400 * 86400)).collections ∧
    (⟨399 * 86400, "new"⟩ : CollectionRow) ∈ (c8db.cleanup_old_data (400 * 86400)).collections ∧
    (⟨1, 30 * 86400, "a", false, none⟩ : AggRow) ∉
      (c8db.cleanup_old_data (400 * 86400)).aggregated_data ∧
    (⟨2, 399 * 86400, "b", false, none⟩ : AggRow) ∈
      (c8db.cleanup_old_data (400 * 86400)).aggregated_data ∧
    (⟨30 * 86400, 5, false, some "e", none, none, 1⟩ : SendAttempt) ∉
      (c8db.cleanup_old_data (400 * 86400)).send_attempts ∧
    (⟨399 * 86400, 6, false, some "e", none, none, 1⟩ : SendAttempt) ∈
      (c8db.cleanup_old_data (400 * 86400)).send_attempts := by
  have H := cleanup_old_data_retention c8db (400 * 86400)
  refine ⟨?_, ?_, ?_, ?_, ?_, ?_⟩
  · exact (H.1 _ (by decide)).1 (by decide)
  · exact (H.1 _ (by decide)).2 (by decide)
  · exact (H.2.1 _ (by decide)).1 (by decide)
  · exact (H.2.1 _ (by decide)).2 (by decide)
  · exact (H.2.2 _ (by decide)).1 (by decide)
  · exact (H.2.2 _ (by decide)).2 (by decide)

/-- C10: `mark_aggregated_data_sent` leaves the other tables untouched and
rewrites only the matching row's `sent` and `error` columns: on success to
`sent = true, error = NULL` (erasing any earlier message), on failure to
`sent = false, error = ` the supplied string; `id`, `aggregation_time`
and `data` are unchanged, and non-matching rows are unchanged entirely. -/
theorem mark_aggregated_data_sent_frame (db : Database) (i : Nat) (s : Bool)
    (e : Option String) :
    (db.mark_aggregated_data_sent i s e).collections = db.collections ∧
    (db.mark_aggregated_data_sent i s e).send_attempts = db.send_attempts ∧
    (db.mark_aggregated_data_sent i s e).aggregated_data.length =
      db.aggregated_data.length ∧
    ∀ (n : Nat) (h : n < db.aggregated_data.length)
      (h2 : n < (db.mark_aggregated_data_sent i s e).aggregated_data.length),
      (((db.mark_aggregated_data_sent i s e).aggregated_data.get ⟨n, h2⟩).id =
          (db.aggregated_data.get ⟨n, h⟩).id ∧
        ((db.mark_aggregated_data_sent i s e).aggregated_data.get ⟨n, h2⟩).aggregation_time =
          (db.aggregated_data.get ⟨n, h⟩).aggregation_time ∧
        ((db.mark_aggregated_data_sent i s e).aggregated_data.get ⟨n, h2⟩).data =
          (db.aggregated_data.get ⟨n, h⟩).data) ∧
      ((db.aggregated_data.get ⟨n, h⟩).id ≠ i →
        (db.mark_aggregated_data_sent i s e).aggregated_data.get ⟨n, h2⟩ =
          db.aggregated_data.get ⟨n, h⟩) ∧
      ((db.aggregated_data.get ⟨n, h⟩).id = i →
        (s = true →
          ((db.mark_aggregated_data_sent i s e).aggregated_data.get ⟨n, h2⟩).sent = true ∧
          ((db.mark_aggregated_data_sent i s e).aggregated_data.get ⟨n, h2⟩).error = none) ∧
        (s = false →
          ((db.mark_aggregated_data_sent i s e).aggregated_data.get ⟨n, h2⟩).sent = false ∧
          ((db.mark_aggregated_data_sent i s e).aggregated_data.get ⟨n, h2⟩).error = e)) := by
  refine ⟨rfl, rfl, by simp [Database.mark_aggregated_data_sent], ?_⟩
  intro n h h2
  have hget : (db.mark_aggregated_data_sent i s e).aggregated_data.get ⟨n, h2⟩ =
      (fun r : AggRow =>
        if r.id = i then
          if s then { r with sent := true, error := none }
          else { r with sent := false, error := e }
        else r) (db.aggregated_data.get ⟨n, h⟩) := by
    simp [Database.mark_aggregated_data_sent]
  rw [hget]
  simp only [List.get_eq_getElem]
  by_cases hid : db.aggregated_data[n].id = i
  · cases s
    · simp [hid]
    · simp [hid]
  · simp [hid]

/-- C10 witness: marking the single row (which carries an old error
message) as sent resets it to `sent = true, error = NULL` while keeping
its identity columns. -/
theorem mark_aggregated_data_sent_frame_witness :
    (((Database.mk [] [⟨1, 5, "d", false, some "old"⟩]
          []).mark_aggregated_data_sent 1 true none).aggregated_data.get
        ⟨0, by decide⟩).sent = true ∧
    (((Database.mk [] [⟨1, 5, "d", false, some "old"⟩]
          []).mark_aggregated_data_sent 1 true none).aggregated_data.get
        ⟨0, by decide⟩).error = none ∧
    (((Database.mk [] [⟨1, 5, "d", false, some "old"⟩]
          []).mark_aggregated_data_sent 1 true none).aggregated_data.get
        ⟨0, by decide⟩).id = 1 := by
  have H := (mark_aggregated_data_sent_frame (Database.mk [] [⟨1, 5, "d", false, some "old"⟩] [])
    1 true none).2.2.2 0 (by decide) (by decide)
  refine ⟨(H.2.2 (by decide)).1 rfl |>.1, (H.2.2 (by decide)).1 rfl |>.2, ?_⟩
  have := H.1.1
  simpa using this

theorem send_data_preserves_aggregated (client : ServerClient) (data : Payload) (t : Int)
    (db : Database) (now : Int) (net : NetOutcome) :
    (client.send_data data t db now net).db.aggregated_data = db.aggregated_data := by
  unfold ServerClient.send_data
  repeat' split
  all_goals try rfl
  all_goals dsimp only
  all_goals split <;> try rfl
  all_goals split <;> rfl

theorem mark_true_row_sent (db : Database) (i : Nat) :
    ∀ r ∈ (db.mark_aggregated_data_sent i true).aggregated_data,
      r.id = i → r.sent = true ∧ r.error = none := by
  intro r hr hri
  simp only [Database.mark_aggregated_data_sent, List.mem_map] at hr
  obtain ⟨r0, _, hfr⟩ := hr
  by_cases h0 : r0.id = i
  · rw [← hfr]
    simp [h0]
  · rw [if_neg h0] at hfr
    subst hfr
    exact absurd hri h0

theorem mark_false_row_error (db : Database) (i : Nat) (e : Option String) :
    ∀ r ∈ (db.mark_aggregated_data_sent i false e).aggregated_data,
      r.id = i → r.sent = false ∧ r.error = e := by
  intro r hr hri
  simp only [Database.mark_aggregated_data_sent, List.mem_map] at hr
  obtain ⟨r0, _, hfr⟩ := hr
  by_cases h0 : r0.id = i
  · rw [← hfr]
    simp [h0]
  · rw [if_neg h0] at hfr
    subst hfr
    exact absurd hri h0

theorem mark_true_not_in_unsent (db : Database) (i : Nat) (now : Int) :
    ∀ u ∈ (db.mark_aggregated_data_sent i true).get_unsent_aggregated_data now, u.id ≠ i := by
  intro u hu
  simp only [Database.get_unsent_aggregated_data, List.mem_map] at hu
  obtain ⟨r, hr, hru⟩ := hu
  rw [mem_sortLe] at hr
  rw [List.mem_filter] at hr
  obtain ⟨hrmem, hpred⟩ := hr
  intro hui
  have hri : r.id = i := by rw [← hru] at hui; exact hui
  have := (mark_true_row_sent db i r hrmem hri).1
  simp [this] at hpred

theorem mark_false_in_unsent (db : Database) (i : Nat) (e : Option String) (now : Int) :
    ∀ r ∈ db.aggregated_data, r.id = i → now - 30 * 86400 < r.aggregation_time →
      ∃ u ∈ (db.mark_aggregated_data_sent i false e).get_unsent_aggregated_data now,
        u.id = i ∧ u.aggregation_time = r.aggregation_time := by
  intro r hr hri hwin
  refine ⟨⟨i, r.aggregation_time, r.data⟩, ?_, rfl, rfl⟩
  simp only [Database.get_unsent_aggregated_data, List.mem_map]
  refine ⟨{ r with id := i, sent := false, error := e }, ?_, rfl⟩
  rw [mem_sortLe, List.mem_filter]
  constructor
  · simp only [Database.mark_aggregated_data_sent, List.mem_map]
    refine ⟨r, hr, ?_⟩
    rw [if_pos hri, if_neg (by simp)]
    rw [← hri]
  · simp
    omega

/-- C6: when the driver call succeeds, every aggregate row with the
payload's id is marked `sent` with its error cleared and no longer
appears in the unsent-data query; and the failure path's status update
(`mark_aggregated_data_sent` with the failure's error, exactly what
`send_aggregated_data` invokes on a failed send) leaves the row unsent
with the error recorded, still visible to the unsent-data query whenever
its key lies inside the query's 30-day window. -/
theorem delivery_status_update (data : Payload) (t : Int) (url : String) (db : Database)
    (now now2 : Int) (net : NetOutcome) (i : Nat) (e : Option String)
    (hid : data.id = some i)
    (hsucc : (send_aggregated_data data t url db now net).success = true) :
    ((∀ r ∈ (send_aggregated_data data t url db now net).db.aggregated_data,
        r.id = i → r.sent = true ∧ r.error = none) ∧
      (∀ u ∈ (send_aggregated_data data t url db now net).db.get_unsent_aggregated_data now2,
        u.id ≠ i)) ∧
    ((∀ r ∈ (db.mark_aggregated_data_sent i false e).aggregated_data,
        r.id = i → r.sent = false ∧ r.error = e) ∧
      (∀ r ∈ db.aggregated_data, r.id = i → now2 - 30 * 86400 < r.aggregation_time →
        ∃ u ∈ (db.mark_aggregated_data_sent i false e).get_unsent_aggregated_data now2,
          u.id = i ∧ u.aggregation_time = r.aggregation_time)) := by
  have hdb : (send_aggregated_data data t url db now net).db =
      ((ServerClient.init url ((data.contract_number).getD "")).send_data data t db now
        net).db.mark_aggregated_data_sent i true := by
    unfold send_aggregated_data at hsucc ⊢
    dsimp only at hsucc ⊢
    simp only [hid]
    rw [if_pos hsucc]
  refine ⟨⟨?_, ?_⟩, mark_false_row_error db i e, mark_false_in_unsent db i e now2⟩
  · rw [hdb]
    exact mark_true_row_sent _ i
  · rw [hdb]
    exact mark_true_not_in_unsent _ i now2

/-- C6 witness: a successful (offline) driver call on a one-row store
marks the row sent and empties the unsent query; the failure-path update
records the error and keeps the row in the unsent query. -/
theorem delivery_status_update_witness :
    ((⟨some 1, none, "r"⟩ : Payload).id = some 1) ∧
    (send_aggregated_data ⟨some 1, none, "r"⟩ 50 "http://x"
        ⟨[], [⟨1, 40, "d", false, none⟩], []⟩ 60 (NetOutcome.exc "boom")).success = true ∧
    (∀ u ∈ (send_aggregated_data ⟨some 1, none, "r"⟩ 50 "http://x"
        ⟨[], [⟨1, 40, "d", false, none⟩], []⟩ 60
        (NetOutcome.exc "boom")).db.get_unsent_aggregated_data 100, u.id ≠ 1) ∧
    (∀ r ∈ ((⟨[], [⟨1, 40, "d", false, none⟩], []⟩ :
          Database).mark_aggregated_data_sent 1 false (some "E")).aggregated_data,
      r.id = 1 → r.sent = false ∧ r.error = some "E") := by
  refine ⟨rfl, by decide, ?_, ?_⟩
  · exact (delivery_status_update ⟨some 1, none, "r"⟩ 50 "http://x"
      ⟨[], [⟨1, 40, "d", false, none⟩], []⟩ 60 100 (NetOutcome.exc "boom") 1 (some "E")
      rfl (by decide)).1.2
  · exact (delivery_status_update ⟨some 1, none, "r"⟩ 50 "http://x"
      ⟨[], [⟨1, 40, "d", false, none⟩], []⟩ 60 100 (NetOutcome.exc "boom") 1 (some "E")
      rfl (by decide)).2.1

theorem lookup_of_mem_keys {β : Type} (k : String) (l : List (String × β))
    (h : k ∈ l.map Prod.fst) : ∃ v, l.lookup k = some v := by
  induction l with
  | nil => simp at h
  | cons p t ih =>
    by_cases hk : k = p.1
    · have hb : (k == p.1) = true := by simpa using hk
      exact ⟨p.2, by simp [List.lookup, hb]⟩
    · have hb : (k == p.1) = false := by simpa using hk
      have : k ∈ t.map Prod.fst := by
        simp only [List.map_cons, List.mem_cons] at h
        tauto
      obtain ⟨v, hv⟩ := ih this
      exact ⟨v, by simp [List.lookup, hb, hv]⟩

theorem filterMap_keys_id {β : Type} (keys : List String) (f : String → Option (String × β))
    (hf : ∀ k ∈ keys, ∃ b, f k = some (k, b)) :
    (keys.filterMap f).map Prod.fst = keys := by
  induction keys with
  | nil => rfl
  | cons k ks ih =>
    obtain ⟨b, hb⟩ := hf k (List.mem_cons_self _ _)
    rw [List.filterMap_cons, hb]
    simp only [List.map_cons]
    rw [ih (fun x hx => hf x (List.mem_cons_of_mem _ hx))]

theorem presentValues_cons_some (g : Reading) (l : List Reading) (k : String) (v : ℚ)
    (h : g.fields.lookup k = some v) :
    presentValues (g :: l) k = v :: presentValues l k := by
  simp [presentValues, List.filterMap_cons, h]

theorem aggregateDevice_keys (g0 : Reading) (rest : List Reading) :
    (aggregateDevice (g0 :: rest)).stats.map Prod.fst = g0.fields.map Prod.fst := by
  apply filterMap_keys_id
  intro k hk
  obtain ⟨v, hv⟩ := lookup_of_mem_keys k g0.fields hk
  rw [presentValues_cons_some g0 rest k v hv]
  exact ⟨_, rfl⟩

theorem aggregateDevice_stats_mem (gpu_list : List Reading) (k : String) (s : FieldStats)
    (h : (k, s) ∈ (aggregateDevice gpu_list).stats) :
    presentValues gpu_list k ≠ [] ∧
    s.mean = (presentValues gpu_list k).sum / ((presentValues gpu_list k).length : ℚ) ∧
    s.min ∈ presentValues gpu_list k ∧ (∀ v ∈ presentValues gpu_list k, s.min ≤ v) ∧
    s.max ∈ presentValues gpu_list k ∧ (∀ v ∈ presentValues gpu_list k, v ≤ s.max) := by
  cases gpu_list with
  | nil => simp [aggregateDevice] at h
  | cons g0 rest =>
    simp only [aggregateDevice] at h
    rw [List.mem_filterMap] at h
    obtain ⟨k1, _, hf⟩ := h
    cases hv : presentValues (g0 :: rest) k1 with
    | nil => rw [hv] at hf; simp at hf
    | cons v vs =>
      rw [hv] at hf
      simp only [Option.some.injEq, Prod.mk.injEq] at hf
      obtain ⟨hk1, hs⟩ := hf
      subst hk1
      subst hs
      rw [hv]
      refine ⟨by simp, rfl, ?_, ?_, ?_, ?_⟩
      · exact foldl_min_mem v vs
      · exact foldl_min_le v vs
      · exact foldl_max_mem v vs
      · exact foldl_le_max v vs

theorem aggregateDevice_filter_device_id (l : List Reading) (d : String) (k : String)
    (s : FieldStats)
    (hks : (k, s) ∈ (aggregateDevice (l.filter (fun r => decide (r.device_id = d)))).stats) :
    (aggregateDevice (l.filter (fun r => decide (r.device_id = d)))).device_id = d := by
  cases hF : l.filter (fun r => decide (r.device_id = d)) with
  | nil =>
    rw [hF] at hks
    simp [aggregateDevice] at hks
  | cons g0 rest =>
    have hmem : g0 ∈ l.filter (fun r => decide (r.device_id = d)) := by
      rw [hF]; exact List.mem_cons_self _ _
    rw [List.mem_filter] at hmem
    simpa [aggregateDevice] using hmem.2

/-- C5: every `_mean` emitted by the aggregator equals the sum of exactly
the values present for that field in the device's group divided by their
count (readings missing the field are skipped, not counted as zero), and
`_min`/`_max` are a member of and a lower/upper bound of those same
values. -/
theorem aggregate_stats_mean_min_max (collections : List (List Reading)) (g : AggregatedGpu)
    (hg : g ∈ aggregate_gpu_data collections) (k : String) (s : FieldStats)
    (hks : (k, s) ∈ g.stats) :
    presentValues (collections.flatten.filter
        (fun r => decide (r.device_id = g.device_id))) k ≠ [] ∧
    s.mean = (presentValues (collections.flatten.filter
        (fun r => decide (r.device_id = g.device_id))) k).sum /
      ((presentValues (collections.flatten.filter
        (fun r => decide (r.device_id = g.device_id))) k).length : ℚ) ∧
    s.min ∈ presentValues (collections.flatten.filter
        (fun r => decide (r.device_id = g.device_id))) k ∧
    (∀ v ∈ presentValues (collections.flatten.filter
        (fun r => decide (r.device_id = g.device_id))) k, s.min ≤ v) ∧
    s.max ∈ presentValues (collections.flatten.filter
        (fun r => decide (r.device_id = g.device_id))) k ∧
    (∀ v ∈ presentValues (collections.flatten.filter
        (fun r => decide (r.device_id = g.device_id))) k, v ≤ s.max) := by
  cases collections with
  | nil => simp [aggregate_gpu_data] at hg
  | cons c cs =>
    simp only [aggregate_gpu_data] at hg
    rw [List.mem_map] at hg
    obtain ⟨d, _, hgd⟩ := hg
    subst hgd
    have hdev : (aggregateDevice ((c :: cs).flatten.filter
        (fun r => decide (r.device_id = d)))).device_id = d :=
      aggregateDevice_filter_device_id _ d k s hks
    rw [hdev]
    exact aggregateDevice_stats_mem _ k s hks

/-- Collections used by the C5 witness: two samples of device `g`, the
metric `m` present only in the first. -/
def c5cols : List (List Reading) := [[⟨"g", "n1", [("m", 5)]⟩], [⟨"g", "n2", [("x", 7)]⟩]]

/-- Device group the aggregator builds for device `g` of the C5 witness. -/
def c5grp : List Reading := c5cols.flatten.filter (fun r => decide (r.device_id = "g"))

/-- Summary the aggregator emits for the C5 witness device. -/
def c5g : AggregatedGpu := aggregateDevice c5grp

/-- Statistics the aggregator emits for metric `m` in the C5 witness. -/
def c5s : FieldStats :=
  { mean := ((5 : ℚ) :: []).sum / (((5 : ℚ) :: []).length : ℚ)
    min := ([] : List ℚ).foldl Min.min 5
    max := ([] : List ℚ).foldl Max.max 5 }

theorem c5g_mem : c5g ∈ aggregate_gpu_data c5cols := by
  have hlist : aggregate_gpu_data c5cols = [c5g] := rfl
  rw [hlist]
  exact List.mem_singleton_self _

theorem c5s_mem : ("m", c5s) ∈ c5g.stats := by
  have hstats : c5g.stats = [("m", c5s)] := rfl
  rw [hstats]
  exact List.mem_singleton_self _

/-- C5 witness: with `m` present in one of two readings, the values
present are `[5]` and the emitted mean equals that single value (sum over
the one present value divided by one), with min = max = 5. -/
theorem aggregate_stats_mean_min_max_witness :
    c5g ∈ aggregate_gpu_data c5cols ∧
    ("m", c5s) ∈ c5g.stats ∧
    presentValues (c5cols.flatten.filter
      (fun r => decide (r.device_id = c5g.device_id))) "m" = [5] ∧
    c5s.mean = 5 ∧ c5s.min = 5 ∧ c5s.max = 5 ∧
    (presentValues (c5cols.flatten.filter
        (fun r => decide (r.device_id = c5g.device_id))) "m" ≠ [] ∧
      c5s.mean = (presentValues (c5cols.flatten.filter
          (fun r => decide (r.device_id = c5g.device_id))) "m").sum /
        ((presentValues (c5cols.flatten.filter
          (fun r => decide (r.device_id = c5g.device_id))) "m").length : ℚ) ∧
      c5s.min ∈ presentValues (c5cols.flatten.filter
          (fun r => decide (r.device_id = c5g.device_id))) "m" ∧
      (∀ v ∈ presentValues (c5cols.flatten.filter
          (fun r => decide (r.device_id = c5g.device_id))) "m", c5s.min ≤ v) ∧
      c5s.max ∈ presentValues (c5cols.flatten.filter
          (fun r => decide (r.device_id = c5g.device_id))) "m" ∧
      (∀ v ∈ presentValues (c5cols.flatten.filter
          (fun r => decide (r.device_id = c5g.device_id))) "m", v ≤ c5s.max)) := by
  refine ⟨c5g_mem, c5s_mem, rfl, ?_, rfl, rfl,
    aggregate_stats_mean_min_max c5cols c5g c5g_mem "m" c5s c5s_mem⟩
  norm_num [c5s]

/-- C2 counterexample: device `g` reports `temp` in its second reading of
the window but not in its first; `temp` is present in one of the device's
readings yet no `temp` statistics appear in the summary, because the
aggregator draws its field set from the first reading only. -/
theorem aggregate_field_presence_counterexample :
    ("temp" ∈ (Reading.mk "g" "n" [("util", 2), ("temp", 3)]).fields.map Prod.fst) ∧
    (Reading.mk "g" "n" [("util", 2), ("temp", 3)]) ∈
      ([[⟨"g", "n", [("util", 1)]⟩, ⟨"g", "n", [("util", 2), ("temp", 3)]⟩]] :
        List (List Reading)).flatten ∧
    ∀ g ∈ aggregate_gpu_data
        [[⟨"g", "n", [("util", 1)]⟩, ⟨"g", "n", [("util", 2), ("temp", 3)]⟩]],
      "temp" ∉ g.stats.map Prod.fst := by
  decide

/-- C2 (amended): the fields aggregated for a device group are exactly the
numeric fields of the group's first reading in the window; a field absent
from the first reading is absent from the summary even when present in a
later reading, and every field of the first reading gets its
`_mean`/`_min`/`_max` entries. -/
theorem aggregate_keys_from_first_reading (collections : List (List Reading)) (d : String)
    (r0 : Reading)
    (h : (collections.flatten.filter (fun g => decide (g.device_id = d))).head? = some r0) :
    ∃ g ∈ aggregate_gpu_data collections, g.device_id = d ∧
      g.stats.map Prod.fst = r0.fields.map Prod.fst := by
  cases collections with
  | nil => simp at h
  | cons c cs =>
    cases hF : (c :: cs).flatten.filter (fun g => decide (g.device_id = d)) with
    | nil => rw [hF] at h; simp at h
    | cons g0 rest =>
      rw [hF] at h
      simp only [List.head?_cons, Option.some.injEq] at h
      subst h
      have hmem : g0 ∈ (c :: cs).flatten.filter (fun g => decide (g.device_id = d)) := by
        rw [hF]; exact List.mem_cons_self _ _
      rw [List.mem_filter] at hmem
      have hg0d : g0.device_id = d := by simpa using hmem.2
      refine ⟨aggregateDevice ((c :: cs).flatten.filter (fun g => decide (g.device_id = d))),
        ?_, ?_, ?_⟩
      · simp only [aggregate_gpu_data]
        apply List.mem_map_of_mem
        rw [mem_uniqueKeys]
        rw [List.mem_map]
        exact ⟨g0, hmem.1, hg0d⟩
      · rw [hF]
        simpa [aggregateDevice] using hg0d
      · rw [hF]
        exact aggregateDevice_keys g0 rest

theorem get_send_by_time_eq (db : Database) (t : Int)
    (hne : db.send_attempts.filter (fun a => decide (a.aggregation_time = t)) ≠ []) :
    db.get_send_by_time t =
      some (summaryOfRows
        (db.send_attempts.filter (fun a => decide (a.aggregation_time = t)))) := by
  unfold Database.get_send_by_time
  cases hF : db.send_attempts.filter (fun a => decide (a.aggregation_time = t)) with
  | nil => exact absurd hF hne
  | cons r rs => rfl

theorem mem_get_all_sends (db : Database) (t : Int)
    (h : ∃ a ∈ db.send_attempts, a.aggregation_time = t) :
    (t, summaryOfRows (db.send_attempts.filter (fun a => decide (a.aggregation_time = t)))) ∈
      db.get_all_sends := by
  unfold Database.get_all_sends
  apply List.mem_map_of_mem
  rw [mem_sortLe, mem_uniqueKeys, List.mem_map]
  obtain ⟨a0, ha0, hat⟩ := h
  exact ⟨a0, ha0, hat⟩

theorem mem_failed_errors (db : Database) (t : Int) (x : String) :
    x ∈ (db.send_attempts.filter (fun a => decide (a.aggregation_time = t))).filterMap
        (fun a => if a.success then none else a.error) ↔
      ∃ a ∈ db.send_attempts, a.aggregation_time = t ∧ a.success = false ∧
        a.error = some x := by
  rw [List.mem_filterMap]
  constructor
  · rintro ⟨a, haR, hfa⟩
    rw [List.mem_filter] at haR
    by_cases hs : a.success = true
    · rw [if_pos hs] at hfa
      simp at hfa
    · rw [if_neg hs] at hfa
      exact ⟨a, haR.1, by simpa using haR.2, by simpa using hs, hfa⟩
  · rintro ⟨a, ha, hat, hs, he⟩
    refine ⟨a, ?_, ?_⟩
    · rw [List.mem_filter]
      exact ⟨ha, by simp [hat]⟩
    · rw [if_neg (by simp [hs]), he]

/-- C9 (amended): for every aggregation key with at least one recorded
attempt, the summary row produced by `get_send_by_time` (and listed by
`get_all_sends`) has its last-error equal to the lexicographically
greatest (BINARY-collation `MAX`) error string over all of that key's
failed attempts — not the chronologically last one — and `NULL` exactly
when no failed attempt carries an error. -/
theorem send_summary_last_error (db : Database) (t : Int)
    (h : ∃ a ∈ db.send_attempts, a.aggregation_time = t) :
    ∃ s, db.get_send_by_time t = some s ∧ (t, s) ∈ db.get_all_sends ∧
      ((s.last_error = none ∧
          ∀ a ∈ db.send_attempts, a.aggregation_time = t → a.success = false →
            a.error = none) ∨
        ∃ e, s.last_error = some e ∧
          (∃ a ∈ db.send_attempts, a.aggregation_time = t ∧ a.success = false ∧
            a.error = some e) ∧
          (∀ a ∈ db.send_attempts, a.aggregation_time = t → a.success = false →
            ∀ x, a.error = some x → strLt e x = false)) := by
  have hne : db.send_attempts.filter (fun a => decide (a.aggregation_time = t)) ≠ [] := by
    obtain ⟨a0, ha0, hat⟩ := h
    have : a0 ∈ db.send_attempts.filter (fun a => decide (a.aggregation_time = t)) := by
      rw [List.mem_filter]
      exact ⟨ha0, by simp [hat]⟩
    intro hnil
    rw [hnil] at this
    simp at this
  refine ⟨summaryOfRows (db.send_attempts.filter (fun a => decide (a.aggregation_time = t))),
    get_send_by_time_eq db t hne, mem_get_all_sends db t h, ?_⟩
  have hle : (summaryOfRows
      (db.send_attempts.filter (fun a => decide (a.aggregation_time = t)))).last_error =
      sqlMaxStr ((db.send_attempts.filter
        (fun a => decide (a.aggregation_time = t))).filterMap
          (fun a => if a.success then none else a.error)) := rfl
  cases herrs : (db.send_attempts.filter (fun a => decide (a.aggregation_time = t))).filterMap
      (fun a => if a.success then none else a.error) with
  | nil =>
    left
    constructor
    · rw [hle, herrs]
      rfl
    · intro a ha hat hs
      cases hae : a.error with
      | none => rfl
      | some x =>
        have : x ∈ (db.send_attempts.filter
            (fun a => decide (a.aggregation_time = t))).filterMap
              (fun a => if a.success then none else a.error) :=
          (mem_failed_errors db t x).2 ⟨a, ha, hat, hs, hae⟩
        rw [herrs] at this
        simp at this
  | cons e0 es =>
    right
    obtain ⟨e, hmax, hmem, hbound⟩ := sqlMaxStr_spec (e0 :: es) (by simp)
    refine ⟨e, ?_, ?_, ?_⟩
    · rw [hle, herrs, hmax]
    · have : e ∈ (db.send_attempts.filter
          (fun a => decide (a.aggregation_time = t))).filterMap
            (fun a => if a.success then none else a.error) := by
        rw [herrs]; exact hmem
      exact (mem_failed_errors db t e).1 this
    · intro a ha hat hs x hax
      have : x ∈ (db.send_attempts.filter
          (fun a => decide (a.aggregation_time = t))).filterMap
            (fun a => if a.success then none else a.error) :=
        (mem_failed_errors db t x).2 ⟨a, ha, hat, hs, hax⟩
      rw [herrs] at this
      exact hbound x this

/-- C9 witness: a key with two failed attempts, errors "b" then "a",
reaches the amended theorem's hypotheses and conclusions. -/
theorem send_summary_last_error_witness :
    (∃ a ∈ (Database.mk [] []
        [⟨5, 1, false, some "b", none, none, 1⟩,
          ⟨5, 2, false, some "a", none, none, 2⟩]).send_attempts,
      a.aggregation_time = 5) ∧
    ∃ s, (Database.mk [] []
        [⟨5, 1, false, some "b", none, none, 1⟩,
          ⟨5, 2, false, some "a", none, none, 2⟩]).get_send_by_time 5 = some s ∧
      (5, s) ∈ (Database.mk [] []
        [⟨5, 1, false, some "b", none, none, 1⟩,
          ⟨5, 2, false, some "a", none, none, 2⟩]).get_all_sends ∧
      ((s.last_error = none ∧
          ∀ a ∈ (Database.mk [] []
              [⟨5, 1, false, some "b", none, none, 1⟩,
                ⟨5, 2, false, some "a", none, none, 2⟩]).send_attempts,
            a.aggregation_time = 5 → a.success = false → a.error = none) ∨
        ∃ e, s.last_error = some e ∧
          (∃ a ∈ (Database.mk [] []
              [⟨5, 1, false, some "b", none, none, 1⟩,
                ⟨5, 2, false, some "a", none, none, 2⟩]).send_attempts,
            a.aggregation_time = 5 ∧ a.success = false ∧ a.error = some e) ∧
          (∀ a ∈ (Database.mk [] []
              [⟨5, 1, false, some "b", none, none, 1⟩,
                ⟨5, 2, false, some "a", none, none, 2⟩]).send_attempts,
            a.aggregation_time = 5 → a.success = false →
              ∀ x, a.error = some x → strLt e x = false)) :=
  ⟨⟨⟨5, 1, false, some "b", none, none, 1⟩, by decide⟩,
    send_summary_last_error (Database.mk [] []
      [⟨5, 1, false, some "b", none, none, 1⟩,
        ⟨5, 2, false, some "a", none, none, 2⟩]) 5
      ⟨⟨5, 1, false, some "b", none, none, 1⟩, by decide⟩⟩

/-- C9 counterexample: two failed attempts for key 5, first (earlier
timestamp) with error "b", second (later) with error "a": the summary
queries report last-error "b" (the lexicographic SQL `MAX`), while the
chronologically last failed attempt's error is "a". -/
theorem send_summary_last_error_counterexample :
    ((Database.mk [] [] [⟨5, 1, false, some "b", none, none, 1⟩,
        ⟨5, 2, false, some "a", none, none, 2⟩]).get_send_by_time 5).map
      (fun s => s.last_error) = some (some "b") ∧
    specChronLastError (Database.mk [] [] [⟨5, 1, false, some "b", none, none, 1⟩,
        ⟨5, 2, false, some "a", none, none, 2⟩]) 5 = some "a" ∧
    ((Database.mk [] [] [⟨5, 1, false, some "b", none, none, 1⟩,
        ⟨5, 2, false, some "a", none, none, 2⟩]).get_all_sends).map
      (fun p => (p.1, p.2.last_error)) = [(5, some "b")] ∧
    ¬(((Database.mk [] [] [⟨5, 1, false, some "b", none, none, 1⟩,
        ⟨5, 2, false, some "a", none, none, 2⟩]).get_send_by_time 5).map
      (fun s => s.last_error) = some (specChronLastError
        (Database.mk [] [] [⟨5, 1, false, some "b", none, none, 1⟩,
          ⟨5, 2, false, some "a", none, none, 2⟩]) 5)) := by
  decide

/-- C2 witness: for the window whose first reading of device `g` carries
only `util`, the summary's field set is exactly `util` — even though a
later reading also carries `temp`. -/
theorem aggregate_keys_from_first_reading_witness :
    (([[⟨"g", "n", [("util", 1)]⟩, ⟨"g", "n", [("util", 2), ("temp", 3)]⟩]] :
        List (List Reading)).flatten.filter
      (fun g => decide (g.device_id = "g"))).head? =
        some ⟨"g", "n", [("util", 1)]⟩ ∧
    ∃ g ∈ aggregate_gpu_data
        [[⟨"g", "n", [("util", 1)]⟩, ⟨"g", "n", [("util", 2), ("temp", 3)]⟩]],
      g.device_id = "g" ∧
      g.stats.map Prod.fst = (Reading.mk "g" "n" [("util", 1)]).fields.map Prod.fst :=
  ⟨by decide,
    aggregate_keys_from_first_reading
      [[⟨"g", "n", [("util", 1)]⟩, ⟨"g", "n", [("util", 2), ("temp", 3)]⟩]] "g"
      ⟨"g", "n", [("util", 1)]⟩ (by decide)⟩
